import Mathlib

set_option maxRecDepth 1000000

/-!
Verification development for scripts/scrape_soundcloud.py: a SoundCloud
profile/playlist scraper.  The extraction pipeline (several regex passes
over raw HTML, merged into a deduplicated track list) is embedded shallowly:
strings are `List Char`, each Python regex is transcribed as a token list for
a small backtracking matcher with Python `re` semantics (leftmost match,
greedy classes with backtracking, lazy dot-all star, non-overlapping
`findall`), and Python string methods are reimplemented faithfully for
ASCII inputs.  The network fetch is modelled as an `Except`-valued input:
an exception anywhere in the fetch surfaces as the caught-exception branch.
-/

/-- Convert a string literal to the character-list representation used
throughout the development. -/
def str2 (s : String) : List Char := s.data

/-! ## Python string primitives on `List Char` -/

/-- Python `str.lower` (ASCII). -/
def pyLower (s : List Char) : List Char := s.map Char.toLower

/-- Characters that Python `str.strip()` removes (ASCII whitespace). -/
def isPyWs (c : Char) : Bool :=
  c = ' ' || c = '\t' || c = '\n' || c = '\r' || c = '\x0b' || c = '\x0c'

/-- Python `str.strip()`. -/
def pyStrip (s : List Char) : List Char :=
  ((s.dropWhile isPyWs).reverse.dropWhile isPyWs).reverse

/-- Python `str.rstrip('/')`. -/
def pyRstripSlash (s : List Char) : List Char :=
  (s.reverse.dropWhile (fun c => c = '/')).reverse

/-- Helper for `pyTitle`: `prev` records whether the previous character was
alphabetic (cased). -/
def pyTitleAux : Bool → List Char → List Char
  | _, [] => []
  | prev, c :: cs =>
    if c.isAlpha then
      (if prev then c.toLower else c.toUpper) :: pyTitleAux true cs
    else
      c :: pyTitleAux false cs

/-- Python `str.title()`: uppercase each letter that follows a non-letter,
lowercase the other letters. -/
def pyTitle (s : List Char) : List Char := pyTitleAux false s

/-- Helper for `pyReplace`, fuelled by the input length (each step consumes
at least one character when the pattern is nonempty). -/
def pyReplaceAux (pat rep : List Char) : Nat → List Char → List Char
  | _, [] => []
  | 0, s => s
  | f + 1, c :: cs =>
    if pat.isPrefixOf (c :: cs) then
      rep ++ pyReplaceAux pat rep f ((c :: cs).drop pat.length)
    else
      c :: pyReplaceAux pat rep f cs

/-- Python `str.replace(pat, rep)` for a nonempty `pat`: replace every
non-overlapping occurrence, left to right. -/
def pyReplace (pat rep s : List Char) : List Char :=
  if pat = [] then s else pyReplaceAux pat rep s.length s

/-- Python `str.split(sep)` for a one-character separator. -/
def pySplitChar (sep : Char) : List Char → List (List Char)
  | [] => [[]]
  | c :: cs =>
    let r := pySplitChar sep cs
    if c = sep then [] :: r
    else
      match r with
      | [] => [[c]]
      | h :: t => (c :: h) :: t

/-- Python `s.split('?')[0]`: the part before the first question mark. -/
def cutQuery (s : List Char) : List Char := s.takeWhile (fun c => c ≠ '?')

/-- Python `str.find` for a literal needle: index of the leftmost
occurrence, `none` for Python's `-1`. -/
def findSub (needle : List Char) : List Char → Option Nat
  | [] => if needle = [] then some 0 else none
  | c :: cs =>
    if needle.isPrefixOf (c :: cs) then some 0
    else (findSub needle cs).map (· + 1)

/-- Python `needle in s` (substring containment). -/
def infixOf (needle s : List Char) : Bool := (findSub needle s).isSome

/-- Case-insensitive prefix test (ASCII), for `re.IGNORECASE` literals. -/
def isPrefixCI : List Char → List Char → Bool
  | [], _ => true
  | _ :: _, [] => false
  | a :: as, b :: bs => a.toLower = b.toLower && isPrefixCI as bs

/-! ## A small regex engine with Python `re` semantics

Each source pattern is transcribed as a `List RTok`.  Character classes are
the negated classes of the source patterns; `lazyAny` is `.*?` under
`re.DOTALL`; `gopen`/`gclose` delimit a capturing group. -/

inductive RTok where
  | lit (l : List Char)
  | litCI (l : List Char)
  | cls (p : Char → Bool) (one : Bool)
  | lazyAny
  | gopen
  | gclose

/-- `descRange lo hi = [hi, hi-1, ..., lo]`: the greedy trial order for a
class quantifier. -/
def descRange (lo hi : Nat) : List Nat :=
  (List.range (hi + 1 - lo)).map (fun i => hi - i)

/-- Backtracking matcher at the current position.  Returns the unconsumed
rest and the captured groups of the first successful alternative, in
Python's backtracking order (greedy classes longest-first, lazy star
shortest-first).  `st` holds the suffixes saved at open groups. -/
def mrun : List RTok → List Char → List (List Char) → List (List Char) →
    Option (List Char × List (List Char))
  | [], s, _, gs => some (s, gs)
  | .lit l :: ts, s, st, gs =>
    if l.isPrefixOf s then mrun ts (s.drop l.length) st gs else none
  | .litCI l :: ts, s, st, gs =>
    if isPrefixCI l s then mrun ts (s.drop l.length) st gs else none
  | .cls p one :: ts, s, st, gs =>
    let hi := (s.takeWhile p).length
    let lo := if one then 1 else 0
    if hi < lo then none
    else (descRange lo hi).findSome? (fun n => mrun ts (s.drop n) st gs)
  | .lazyAny :: ts, s, st, gs =>
    (List.range (s.length + 1)).findSome? (fun n => mrun ts (s.drop n) st gs)
  | .gopen :: ts, s, st, gs => mrun ts s (s :: st) gs
  | .gclose :: ts, s, st, gs =>
    match st with
    | [] => none
    | saved :: st' => mrun ts s st' (gs ++ [saved.take (saved.length - s.length)])

/-- One `re.finditer` step at every position, fuelled by the input length:
`re.findall` semantics (leftmost, non-overlapping; an empty match advances
by one character, as in Python). -/
def scanAllAux (toks : List RTok) : Nat → List Char → List (List (List Char))
  | 0, _ => []
  | f + 1, s =>
    match mrun toks s [] [] with
    | none =>
      match s with
      | [] => []
      | _ :: cs => scanAllAux toks f cs
    | some (rest, gs) =>
      match s with
      | [] => [gs]
      | _ :: cs =>
        if rest.length < s.length then gs :: scanAllAux toks f rest
        else gs :: scanAllAux toks f cs

/-- Python `re.findall(pattern, s)`: the groups of every non-overlapping
match, left to right. -/
def scanAll (toks : List RTok) (s : List Char) : List (List (List Char)) :=
  scanAllAux toks (s.length + 1) s

/-- Python `re.search(pattern, s)`: groups of the leftmost match. -/
def rsearch (toks : List RTok) : List Char → Option (List (List Char))
  | [] => (mrun toks [] [] []).map (·.2)
  | c :: cs =>
    match mrun toks (c :: cs) [] [] with
    | some (_, gs) => some gs
    | none => rsearch toks cs

/-! ## The source file's regex patterns -/

/-- `[^/]` -/
def notSlash (c : Char) : Bool := c ≠ '/'

/-- `[^/"]` -/
def notSlashQuote (c : Char) : Bool := c ≠ '/' && c ≠ '"'

/-- `[^>]` -/
def notGt (c : Char) : Bool := c ≠ '>'

/-- `[^"]` -/
def notQuote (c : Char) : Bool := c ≠ '"'

/-- `[^?"#]` -/
def notQQH (c : Char) : Bool := c ≠ '?' && c ≠ '"' && c ≠ '#'

/-- Python `\s` (ASCII whitespace). -/
def pySpaceChar (c : Char) : Bool := isPyWs c

/-- `href="(https://soundcloud\.com/[^/]+/[^/"]+)"` -/
def patFullUrl : List RTok :=
  [.lit (str2 "href=\""), .gopen, .lit (str2 "https://soundcloud.com/"),
   .cls notSlash true, .lit ['/'], .cls notSlashQuote true, .gclose, .lit ['"']]

/-- `href="/([^/]+/[^/"]+)"` -/
def patRelUrl : List RTok :=
  [.lit (str2 "href=\"/"), .gopen, .cls notSlash true, .lit ['/'],
   .cls notSlashQuote true, .gclose, .lit ['"']]

/-- `<li[^>]*class="soundList__item"[^>]*>.*?aria-label="Track:\s*([^"]+)\s+by\s+([^"]+)"`
(with `re.DOTALL`). -/
def patSoundItemProfile : List RTok :=
  [.lit (str2 "<li"), .cls notGt false, .lit (str2 "class=\"soundList__item\""),
   .cls notGt false, .lit ['>'], .lazyAny, .lit (str2 "aria-label=\"Track:"),
   .cls pySpaceChar false, .gopen, .cls notQuote true, .gclose,
   .cls pySpaceChar true, .lit (str2 "by"), .cls pySpaceChar true,
   .gopen, .cls notQuote true, .gclose, .lit ['"']]

/-- `href="/([^/]+)/([^/"]+)"` (the context-window href pattern). -/
def patHrefPair : List RTok :=
  [.lit (str2 "href=\"/"), .gopen, .cls notSlash true, .gclose, .lit ['/'],
   .gopen, .cls notSlashQuote true, .gclose, .lit ['"']]

/-- `<a[^>]*class="[^"]*sound__coverArt[^"]*"[^>]*href="/([^/]+)/([^/"]+)"` -/
def patCoverArt : List RTok :=
  [.lit (str2 "<a"), .cls notGt false, .lit (str2 "class=\""),
   .cls notQuote false, .lit (str2 "sound__coverArt"), .cls notQuote false,
   .lit ['"'], .cls notGt false, .lit (str2 "href=\"/"),
   .gopen, .cls notSlash true, .gclose, .lit ['/'],
   .gopen, .cls notSlashQuote true, .gclose, .lit ['"']]

/-- `<a[^>]*class="[^"]*trackItem__trackTitle[^"]*"[^>]*href="/([^/]+/[^?"#]+)` -/
def patTrackStation : List RTok :=
  [.lit (str2 "<a"), .cls notGt false, .lit (str2 "class=\""),
   .cls notQuote false, .lit (str2 "trackItem__trackTitle"), .cls notQuote false,
   .lit ['"'], .cls notGt false, .lit (str2 "href=\"/"),
   .gopen, .cls notSlash true, .lit ['/'], .cls notQQH true, .gclose]

/-- `<li[^>]*class="soundList__item"[^>]*>.*?aria-label="Track:\s*([^"]+)\s+by\s+([^"]+)"[^>]*>.*?</li>`
(with `re.DOTALL`). -/
def patSoundItemPlaylist : List RTok :=
  patSoundItemProfile ++ [.cls notGt false, .lit ['>'], .lazyAny, .lit (str2 "</li>")]

/-- `href="/([^/]+)/([^"]*{re.escape(slug)}[^"]*)"` with `re.IGNORECASE`:
the fuzzy href used for playlist sound-list items (`re.escape` makes the
slug a literal). -/
def patFuzzy (slug : List Char) : List RTok :=
  [.litCI (str2 "href=\"/"), .gopen, .cls notSlash true, .gclose, .lit ['/'],
   .gopen, .cls notQuote false, .litCI slug, .cls notQuote false, .gclose, .lit ['"']]

/-- `soundcloud\.com/([^/]+)` (username extraction via `re.search`). -/
def patUsername : List RTok :=
  [.lit (str2 "soundcloud.com/"), .gopen, .cls notSlash true, .gclose]

/-! ## Track records and the extraction pipelines -/

/-- The track record built by every pass (the `thumbnail` key is always
`None` in the HTML-heuristic paths; `artist` is `None` when the profile
username cannot be extracted from the URL). -/
structure Track where
  url : List Char
  title : List Char
  artist : Option (List Char)
  fullTitle : List Char
  thumbnail : Option (List Char)
deriving DecidableEq, Repr

/-- Result of an extraction: a track list or an error object. -/
inductive ScrapeResult where
  | tracks (ts : List Track)
  | error (msg : List Char)
deriving DecidableEq, Repr

/-- The mutable state the source threads through the passes: the `tracks`
accumulator and the `seen_urls` set (modelled as a list, membership only). -/
structure PState where
  tracks : List Track
  seen : List (List Char)
deriving Repr

def initPState : PState := ⟨[], []⟩

def scHost : List Char := str2 "https://soundcloud.com/"

/-- `['tracks', 'albums', 'sets', 'reposts', 'followers', 'following']` -/
def reservedSlugs : List (List Char) :=
  [str2 "tracks", str2 "albums", str2 "sets", str2 "reposts",
   str2 "followers", str2 "following"]

/-- `s.replace('-', ' ').replace('_', ' ').title()` -/
def mkTitleSlug (s : List Char) : List Char :=
  pyTitle (pyReplace ['_'] [' '] (pyReplace ['-'] [' '] s))

/-- `s.replace('-', ' ').title()` -/
def mkTitleDash (s : List Char) : List Char := pyTitle (pyReplace ['-'] [' '] s)

/-- `re.search(r'soundcloud\.com/([^/]+)', url)`, group 1. -/
def searchUsername (url : List Char) : Option (List Char) :=
  (rsearch patUsername url).map (fun gs => gs.getD 0 [])

/-- Profile method 1, one href match (source lines 64-91). -/
def profileM1Step (username : Option (List Char)) (st : PState) (m : List Char) :
    PState :=
  let track_url := if ¬ (str2 "http").isPrefixOf m then scHost ++ m else m
  if infixOf (str2 "/sets/") track_url || infixOf (str2 "/playlists/") track_url
      || infixOf (str2 "/reposts") track_url then st
  else
    let url_parts := pySplitChar '/' (pyReplace scHost [] track_url)
    if url_parts.length = 2 ∧ url_parts.getD 0 [] ≠ [] ∧ url_parts.getD 1 [] ≠ [] then
      if track_url ∈ st.seen then st
      else
        let track_name := url_parts.getD 1 []
        let display_name := mkTitleSlug track_name
        { tracks := st.tracks ++ [{
            url := track_url
            title := display_name
            artist := username.map mkTitleDash
            fullTitle := match username with
              | some u => mkTitleDash u ++ str2 " - " ++ display_name
              | none => display_name
            thumbnail := none }]
          seen := track_url :: st.seen }
    else st

/-- Profile method 1: both href patterns, full URLs first (lines 57-63). -/
def profileM1 (username : Option (List Char)) (html : List Char) (st : PState) :
    PState :=
  let ms1 := (scanAll patFullUrl html).map (fun gs => gs.getD 0 [])
  let ms2 := (scanAll patRelUrl html).map (fun gs => gs.getD 0 [])
  (ms1 ++ ms2).foldl (profileM1Step username) st

/-- Profile method 2, inner loop over the context-window href matches
(lines 118-137).  The `break` sits inside the `not in seen_urls` branch, so
an already-seen URL lets the loop continue. -/
def profileM2Loop (tnc an : List Char) : PState → List (List Char × List Char) →
    PState
  | st, [] => st
  | st, (artist_slug, track_slug) :: rest =>
    if infixOf (str2 "/sets/") track_slug || infixOf (str2 "/playlists/") track_slug
        || track_slug ∈ reservedSlugs then
      profileM2Loop tnc an st rest
    else
      let track_url := scHost ++ artist_slug ++ ['/'] ++ track_slug
      if track_url ∈ st.seen then profileM2Loop tnc an st rest
      else
        let seen' := track_url :: st.seen
        match st.tracks.find? (fun t => t.url == track_url) with
        | some _ => { tracks := st.tracks, seen := seen' }
        | none =>
          { tracks := st.tracks ++ [{
              url := track_url, title := tnc, artist := some (pyStrip an)
              fullTitle := pyStrip an ++ str2 " - " ++ tnc, thumbnail := none }]
            seen := seen' }

/-- Profile method 2, one sound-list item (lines 99-137): locate the
aria-label literal, cut a plus/minus 1000-character window (Nat subtraction
is the source's `max(0, ...)`), scan it for href pairs. -/
def profileM2One (html : List Char) (st : PState) (pr : List Char × List Char) :
    PState :=
  let track_name := pr.1
  let artist_name := pr.2
  let track_name_clean := pyStrip track_name
  match findSub (str2 "aria-label=\"Track: " ++ track_name) html with
  | none => st
  | some aria_pos =>
    let context_start := aria_pos - 1000
    let context_end := min html.length (aria_pos + 1000)
    let context := (html.drop context_start).take (context_end - context_start)
    let href_matches := (scanAll patHrefPair context).map
        (fun gs => (gs.getD 0 [], gs.getD 1 []))
    profileM2Loop track_name_clean artist_name st href_matches

/-- Profile method 3, one cover-art match (lines 144-166). -/
def profileM3Step (st : PState) (pr : List Char × List Char) : PState :=
  let artist_slug := pr.1
  let track_slug := pr.2
  if infixOf (str2 "/sets/") track_slug || infixOf (str2 "/playlists/") track_slug
      || track_slug ∈ reservedSlugs then st
  else
    let track_url := scHost ++ artist_slug ++ ['/'] ++ track_slug
    if track_url ∈ st.seen then st
    else
      let track_name := mkTitleSlug track_slug
      let artist_name := mkTitleDash artist_slug
      match st.tracks.find? (fun t => t.url == track_url) with
      | some _ => { tracks := st.tracks, seen := track_url :: st.seen }
      | none =>
        { tracks := st.tracks ++ [{
            url := track_url, title := track_name, artist := some artist_name
            fullTitle := artist_name ++ str2 " - " ++ track_name, thumbnail := none }]
          seen := track_url :: st.seen }

/-- All profile passes in order; the accumulated (pre-dedupe) track list. -/
def profileRawTracks (url html : List Char) : List Track :=
  let username := searchUsername url
  let st1 := profileM1 username html initPState
  let st2 := (scanAll patSoundItemProfile html).foldl
      (fun st gs => profileM2One html st (gs.getD 0 [], gs.getD 1 [])) st1
  let st3 := (scanAll patCoverArt html).foldl
      (fun st gs => profileM3Step st (gs.getD 0 [], gs.getD 1 [])) st2
  st3.tracks

/-- The terminal dedupe pass (lines 168-174 and 325-331): keep the first
record for each URL. -/
def dedupeByUrl : List Track → List (List Char) → List Track
  | [], _ => []
  | t :: ts, seen =>
    if t.url ∈ seen then dedupeByUrl ts seen
    else t :: dedupeByUrl ts (t.url :: seen)

def noTracksMsg : List Char := str2 "No tracks found"

/-- `scrape_profile` after the fetch: the pattern passes, the final dedupe,
and the empty-result error (lines 48-176). -/
def scrape_profile_core (url html : List Char) : ScrapeResult :=
  let unique_tracks := dedupeByUrl (profileRawTracks url html) []
  if unique_tracks = [] then .error noTracksMsg else .tracks unique_tracks

/-- `['/tracks', '/popular-tracks', '/albums', '/sets', '/playlists', '/reposts']` -/
def profilePages : List (List Char) :=
  [str2 "/tracks", str2 "/popular-tracks", str2 "/albums", str2 "/sets",
   str2 "/playlists", str2 "/reposts"]

/-- URL normalization at the top of `scrape_profile` (lines 22-36; both
branches of the source's inner if/else append `/tracks`). -/
def normalizeProfileUrl (url : List Char) : List Char :=
  let u := pyRstripSlash url
  if profilePages.any (fun p => p.isSuffixOf u) then u else u ++ str2 "/tracks"

/-- `scrape_profile`: the fetch outcome is modelled as an `Except` input;
any exception raised inside the function body is caught and returned as an
error object (lines 178-179). -/
def scrape_profile (url : List Char) (fetched : Except (List Char) (List Char)) :
    ScrapeResult :=
  match fetched with
  | .error e => .error e
  | .ok html => scrape_profile_core (normalizeProfileUrl url) html

/-- Playlist method 0, one track-station match (lines 241-258): strip the
query string, check seen/sets/playlists, add to `seen_urls` even when the
two-segment check then fails. -/
def playlistM0Step (st : PState) (m : List Char) : PState :=
  let clean_match := cutQuery m
  let track_url := scHost ++ clean_match
  if track_url ∈ st.seen || infixOf (str2 "/sets/") track_url
      || infixOf (str2 "/playlists/") track_url then st
  else
    let seen' := track_url :: st.seen
    let url_parts := pySplitChar '/' clean_match
    if url_parts.length = 2 ∧ url_parts.getD 0 [] ≠ [] ∧ url_parts.getD 1 [] ≠ [] then
      let track_name := url_parts.getD 1 []
      let display_name := mkTitleSlug track_name
      let artist_name := mkTitleDash (url_parts.getD 0 [])
      { tracks := st.tracks ++ [{
          url := track_url, title := display_name, artist := some artist_name
          fullTitle := artist_name ++ str2 " - " ++ display_name, thumbnail := none }]
        seen := seen' }
    else { tracks := st.tracks, seen := seen' }

/-- The slug guess for a sound-list label (line 267): lowercase, spaces to
hyphens, drop parentheses, dots and the substring `mp3`. -/
def slugGuess (name : List Char) : List Char :=
  pyReplace (str2 "mp3") []
    (pyReplace ['.'] []
      (pyReplace [')'] []
        (pyReplace ['('] []
          (pyReplace [' '] ['-'] (pyLower name)))))

/-- Playlist method 1, one sound-list item (lines 265-284): fuzzy href
search over the whole document with the first 30 characters of the slug
guess, case-insensitively; title/artist verbatim (stripped) from the label. -/
def playlistM1Step (html : List Char) (st : PState) (pr : List Char × List Char) :
    PState :=
  let track_name := pr.1
  let artist_name := pr.2
  let track_name_slug := slugGuess track_name
  match rsearch (patFuzzy (track_name_slug.take 30)) html with
  | none => st
  | some gs =>
    let artist_slug := gs.getD 0 []
    let track_slug := gs.getD 1 []
    let track_url := scHost ++ artist_slug ++ ['/'] ++ track_slug
    if track_url ∈ st.seen || infixOf (str2 "/sets/") track_url
        || infixOf (str2 "/playlists/") track_url then st
    else
      { tracks := st.tracks ++ [{
          url := track_url, title := pyStrip track_name
          artist := some (pyStrip artist_name)
          fullTitle := pyStrip artist_name ++ str2 " - " ++ pyStrip track_name
          thumbnail := none }]
        seen := track_url :: st.seen }

/-- Playlist method 2, one generic href match (lines 294-323): query strings
stripped from both relative and absolute URLs; only sets/playlists excluded. -/
def playlistM2Step (st : PState) (m : List Char) : PState :=
  let track_url := if ¬ (str2 "http").isPrefixOf m then scHost ++ cutQuery m
    else cutQuery m
  if infixOf (str2 "/sets/") track_url || infixOf (str2 "/playlists/") track_url
    then st
  else
    let url_parts := pySplitChar '/' (pyReplace scHost [] track_url)
    if url_parts.length = 2 ∧ url_parts.getD 0 [] ≠ [] ∧ url_parts.getD 1 [] ≠ [] then
      if track_url ∈ st.seen then st
      else
        let track_name := url_parts.getD 1 []
        let display_name := mkTitleSlug track_name
        let artist_name := mkTitleDash (url_parts.getD 0 [])
        { tracks := st.tracks ++ [{
            url := track_url, title := display_name, artist := some artist_name
            fullTitle := artist_name ++ str2 " - " ++ display_name, thumbnail := none }]
          seen := track_url :: st.seen }
    else st

/-- All playlist passes in order; the accumulated (pre-dedupe) track list.
The source also extracts the playlist owner from the URL but never uses it. -/
def playlistRawTracks (url html : List Char) : List Track :=
  let _owner := searchUsername url
  let st0 := (scanAll patTrackStation html).foldl
      (fun st gs => playlistM0Step st (gs.getD 0 [])) initPState
  let st1 := (scanAll patSoundItemPlaylist html).foldl
      (fun st gs => playlistM1Step html st (gs.getD 0 [], gs.getD 1 [])) st0
  let ms1 := (scanAll patFullUrl html).map (fun gs => gs.getD 0 [])
  let ms2 := (scanAll patRelUrl html).map (fun gs => gs.getD 0 [])
  let st2 := (ms1 ++ ms2).foldl playlistM2Step st1
  st2.tracks

/-- `scrape_playlist` after the fetch (lines 229-333). -/
def scrape_playlist_core (url html : List Char) : ScrapeResult :=
  let unique_tracks := dedupeByUrl (playlistRawTracks url html) []
  if unique_tracks = [] then .error noTracksMsg else .tracks unique_tracks

/-- `scrape_playlist` with the fetch outcome as an `Except` input; the
top-level try/except returns any exception text as an error object
(lines 335-336). -/
def scrape_playlist (url : List Char) (fetched : Except (List Char) (List Char)) :
    ScrapeResult :=
  match fetched with
  | .error e => .error e
  | .ok html => scrape_playlist_core url html

/-! ## Hydration-data extraction

`extract_tracks_from_hydration` walks an arbitrary nested Python
mapping/sequence structure.  Such structures can be cyclic, so they are
modelled as a graph: a list of nodes addressed by index, containers holding
child indices.  Atomic leaves are strings and `None` (other atoms play no
part in the traversal logic).  Python `TypeError`s raised by `in` on `None`
and `AttributeError`s from `.get` on non-mappings are modelled as `Except`
errors, which the source function does not catch. -/

inductive HNode where
  | hdict (kvs : List (List Char × Nat))
  | hlist (items : List Nat)
  | hstr (s : List Char)
  | hnull
deriving Repr, DecidableEq

/-- Node lookup; a dangling index reads as `None`. -/
def hGet (g : List HNode) (i : Nat) : HNode := g.getD i .hnull

/-- Python truthiness of a hydration value. -/
def truthy : HNode → Bool
  | .hdict kvs => !kvs.isEmpty
  | .hlist l => !l.isEmpty
  | .hstr s => !s.isEmpty
  | .hnull => false

/-- Python `needle in x`: substring test on strings, key membership on
mappings, element membership on sequences, `TypeError` on `None`. -/
def containsNode (g : List HNode) (needle : List Char) :
    HNode → Except (List Char) Bool
  | .hstr s => .ok (infixOf needle s)
  | .hdict kvs => .ok (kvs.any (fun kv => kv.1 == needle))
  | .hlist ids => .ok (ids.any (fun i =>
      match hGet g i with
      | .hstr s => s == needle
      | _ => false))
  | .hnull => .error (str2 "argument of type 'NoneType' is not iterable")

/-- Python `dict.get` without its default: the child index, if the key is
present. -/
def dictGet (kvs : List (List Char × Nat)) (k : List Char) : Option Nat :=
  (kvs.find? (fun kv => kv.1 == k)).map (·.2)

/-- Resolve an optional child index with a default node. -/
def hGetOptD (g : List HNode) (o : Option Nat) (d : HNode) : HNode :=
  match o with
  | none => d
  | some i => hGet g i

def lbraceChar : Char := Char.ofNat 123
def rbraceChar : Char := Char.ofNat 125
def squoteChar : Char := Char.ofNat 39

/-- Python `repr` of a hydration value, fuelled by graph size; `stack`
holds the node ids on the current path (CPython's `Py_ReprEnter` prints a
placeholder when a container recurses into itself).  String quoting is
simplified to bare single quotes. -/
def reprNode (g : List HNode) : Nat → List Nat → HNode → List Char
  | 0, _, _ => str2 "..."
  | f + 1, stack, n =>
    match n with
    | .hstr s => squoteChar :: (s ++ [squoteChar])
    | .hnull => str2 "None"
    | .hdict kvs =>
      lbraceChar :: ((List.intercalate (str2 ", ")
        (kvs.map (fun kv =>
          (squoteChar :: (kv.1 ++ [squoteChar])) ++ str2 ": " ++
          (if kv.2 ∈ stack then
             match hGet g kv.2 with
             | .hdict _ => lbraceChar :: (str2 "..." ++ [rbraceChar])
             | .hlist _ => str2 "[...]"
             | _ => str2 "..."
           else reprNode g f (kv.2 :: stack) (hGet g kv.2))))) ++ [rbraceChar])
    | .hlist ids =>
      '[' :: ((List.intercalate (str2 ", ")
        (ids.map (fun i =>
          if i ∈ stack then
            match hGet g i with
            | .hdict _ => lbraceChar :: (str2 "..." ++ [rbraceChar])
            | .hlist _ => str2 "[...]"
            | _ => str2 "..."
          else reprNode g f (i :: stack) (hGet g i)))) ++ [']'])

/-- Python `str` of a hydration value (an f-string field): a string renders
as itself, everything else via `repr`. -/
def pyStrNode (g : List HNode) (n : HNode) : List Char :=
  match n with
  | .hstr s => s
  | n' => reprNode g (g.length + 1) [] n'

/-- The record appended by `extract_tracks_from_hydration`; the source
stores raw Python values in the fields, so each field is a node
(`None` is `hnull`). -/
structure HydTrack where
  url : HNode
  title : HNode
  artist : HNode
  fullTitle : HNode
  thumbnail : HNode
deriving Repr, DecidableEq

/-- The track-emission step on a mapping node (source lines 191-204):
`url = obj.get('permalink_url') or obj.get('uri', '')`, the
soundcloud.com / sets / playlists checks in order, then the record fields;
`user.get` on a truthy non-mapping raises `AttributeError`. -/
def emitCheck (g : List HNode) (kvs : List (List Char × Nat))
    (acc : List HydTrack) : Except (List Char) (List HydTrack) :=
  if (dictGet kvs (str2 "permalink_url")).isSome
      || (dictGet kvs (str2 "uri")).isSome then
    let url0 := hGetOptD g (dictGet kvs (str2 "permalink_url")) .hnull
    let url := if truthy url0 then url0
      else hGetOptD g (dictGet kvs (str2 "uri")) (.hstr [])
    if truthy url then
      match containsNode g (str2 "soundcloud.com") url with
      | .error e => .error e
      | .ok b1 =>
        if b1 then
          match containsNode g (str2 "/sets/") url with
          | .error e => .error e
          | .ok b2 =>
            if b2 then .ok acc
            else
              match containsNode g (str2 "/playlists/") url with
              | .error e => .error e
              | .ok b3 =>
                if b3 then .ok acc
                else
                  let title := hGetOptD g (dictGet kvs (str2 "title"))
                    (.hstr (str2 "Unknown Track"))
                  let user := hGetOptD g (dictGet kvs (str2 "user")) (.hdict [])
                  match (if truthy user then
                      match user with
                      | .hdict uk =>
                        Except.ok (hGetOptD g (dictGet uk (str2 "username")) (.hstr []))
                      | _ => Except.error (str2 "object has no attribute 'get'")
                    else Except.ok HNode.hnull) with
                  | .error e => .error e
                  | .ok artist =>
                    let fullTitle := if truthy artist then
                        HNode.hstr (pyStrNode g artist ++ str2 " - " ++ pyStrNode g title)
                      else title
                    let thumb0 := hGetOptD g (dictGet kvs (str2 "artwork_url")) .hnull
                    match (if truthy thumb0 then Except.ok thumb0
                      else if truthy user then
                        match user with
                        | .hdict uk =>
                          Except.ok (hGetOptD g (dictGet uk (str2 "avatar_url")) .hnull)
                        | _ => Except.error (str2 "object has no attribute 'get'")
                      else Except.ok HNode.hnull) with
                    | .error e => .error e
                    | .ok thumbnail =>
                      .ok (acc ++ [⟨url, title, artist, fullTitle, thumbnail⟩])
        else .ok acc
    else .ok acc
  else .ok acc

/-- `search_dict(obj, depth)` with explicit fuel: `none` means the fuel ran
out (never reached from fuel 12, see `searchFuel_some`).  The source stops
descending as soon as `depth > 10`, emits on mapping nodes, and recurses
into every child value/item at `depth + 1` (lines 185-211). -/
def searchFuel (g : List HNode) : Nat → Nat → Nat → List HydTrack →
    Option (Except (List Char) (List HydTrack))
  | 0, _, _, _ => none
  | f + 1, id, depth, acc =>
    if depth > 10 then some (.ok acc)
    else
      match hGet g id with
      | .hdict kvs =>
        match emitCheck g kvs acc with
        | .error e => some (.error e)
        | .ok acc1 =>
          (kvs.map (·.2)).foldl
            (fun macc cid =>
              match macc with
              | none => none
              | some (.error e) => some (.error e)
              | some (.ok a) => searchFuel g f cid (depth + 1) a)
            (some (.ok acc1))
      | .hlist ids =>
        ids.foldl
          (fun macc cid =>
            match macc with
            | none => none
            | some (.error e) => some (.error e)
            | some (.ok a) => searchFuel g f cid (depth + 1) a)
          (some (.ok acc))
      | _ => some (.ok acc)

/-- `extract_tracks_from_hydration(data)`: run `search_dict` from the root
at depth 0.  Twelve units of fuel always suffice because of the depth-10
cutoff (`searchFuel_some` below), so the default is never taken. -/
def extract_tracks_from_hydration (g : List HNode) (root : Nat) :
    Except (List Char) (List HydTrack) :=
  (searchFuel g 12 root 0 []).getD (.ok [])

/-! ## Lemmas about the merge/dedupe step -/

/-- `next((t for t in tracks if t['url'] == u), None)`: the first record
with a given URL. -/
def firstWithUrl (u : List Char) (ts : List Track) : Option Track :=
  ts.find? (fun t => t.url == u)

theorem dedupe_not_seen {ts : List Track} {seen : List (List Char)} {t : Track}
    (h : t ∈ dedupeByUrl ts seen) : t.url ∉ seen := by
  induction ts generalizing seen with
  | nil => simp [dedupeByUrl] at h
  | cons t0 ts ih =>
    simp only [dedupeByUrl] at h
    split at h
    · exact ih h
    · rcases List.mem_cons.mp h with rfl | hmem
      · assumption
      · have h2 := ih hmem
        intro hc
        exact h2 (List.mem_cons_of_mem _ hc)

theorem dedupe_first {ts : List Track} {seen : List (List Char)} {t : Track}
    (h : t ∈ dedupeByUrl ts seen) : firstWithUrl t.url ts = some t := by
  induction ts generalizing seen with
  | nil => simp [dedupeByUrl] at h
  | cons t0 ts ih =>
    simp only [dedupeByUrl] at h
    split at h
    case isTrue hseen =>
      have hne : (t0.url == t.url) = false := by
        refine beq_eq_false_iff_ne.mpr (fun he => ?_)
        exact (dedupe_not_seen h) (he ▸ hseen)
      simpa [firstWithUrl, List.find?, hne] using ih h
    case isFalse hseen =>
      rcases List.mem_cons.mp h with rfl | hmem
      · simp [firstWithUrl, List.find?]
      · have hne : (t0.url == t.url) = false := by
          refine beq_eq_false_iff_ne.mpr (fun he => ?_)
        
          exact (dedupe_not_seen hmem) (he ▸ List.mem_cons_self _ _)
        simpa [firstWithUrl, List.find?, hne] using ih hmem

theorem dedupe_nodup (ts : List Track) (seen : List (List Char)) :
    ((dedupeByUrl ts seen).map (fun t => t.url)).Nodup := by
  induction ts generalizing seen with
  | nil => simp [dedupeByUrl]
  | cons t0 ts ih =>
    simp only [dedupeByUrl]
    split
    · exact ih seen
    · simp only [List.map_cons, List.nodup_cons]
      refine ⟨fun hc => ?_, ih _⟩
      rcases List.mem_map.mp hc with ⟨t, hmem, hurl⟩
      exact (dedupe_not_seen hmem) (hurl ▸ List.mem_cons_self _ _)

theorem dedupe_nil_iff (ts : List Track) : dedupeByUrl ts [] = [] ↔ ts = [] := by
  cases ts with
  | nil => simp [dedupeByUrl]
  | cons t ts => simp [dedupeByUrl]

theorem scrape_profile_core_tracks {url html : List Char} {ts : List Track}
    (h : scrape_profile_core url html = .tracks ts) :
    ts = dedupeByUrl (profileRawTracks url html) [] := by
  simp only [scrape_profile_core] at h
  split at h
  · exact absurd h (by simp)
  · cases h
    rfl

theorem scrape_playlist_core_tracks {url html : List Char} {ts : List Track}
    (h : scrape_playlist_core url html = .tracks ts) :
    ts = dedupeByUrl (playlistRawTracks url html) [] := by
  simp only [scrape_playlist_core] at h
  split at h
  · exact absurd h (by simp)
  · cases h
    rfl

/-! ## The engine's `search` is the leftmost match -/

theorem rsearch_leftmost (toks : List RTok) :
    ∀ (s : List Char) (gs : List (List Char)), rsearch toks s = some gs →
      ∃ i, i ≤ s.length ∧ (mrun toks (s.drop i) [] []).map (·.2) = some gs ∧
        ∀ j < i, mrun toks (s.drop j) [] [] = none := by
  intro s
  induction s with
  | nil =>
    intro gs h
    refine ⟨0, by simp, ?_, by omega⟩
    simpa [rsearch] using h
  | cons c cs ih =>
    intro gs h
    simp only [rsearch] at h
    cases hm : mrun toks (c :: cs) [] [] with
    | some r =>
      rw [hm] at h
      cases h
      exact ⟨0, by simp, by simp [hm], by omega⟩
    | none =>
      rw [hm] at h
      rcases ih gs h with ⟨i, hle, heq, hlt⟩
      refine ⟨i + 1, by simpa using hle, by simpa using heq, ?_⟩
      intro j hj
      cases j with
      | zero => simpa using hm
      | succ j => simpa using hlt j (by omega)

/-! ## Query-string stripping in the playlist URL builders -/

theorem mem_cutQuery {s : List Char} {c : Char} (h : c ∈ cutQuery s) : c ≠ '?' := by
  have := List.takeWhile_subset (l := s) (p := fun c => c ≠ '?') h
  have hp := List.mem_takeWhile_imp h
  simpa using hp

theorem playlistM0Step_url (st : PState) (m : List Char) (t : Track)
    (h : t ∈ (playlistM0Step st m).tracks) : t ∈ st.tracks ∨ '?' ∉ t.url := by
  simp only [playlistM0Step] at h
  split at h
  · exact Or.inl h
  · split at h
    · simp only [List.mem_append, List.mem_singleton] at h
      rcases h with h | rfl
      · exact Or.inl h
      · refine Or.inr (fun hc => ?_)
        rcases List.mem_append.mp hc with hc2 | hc2
        · exact absurd hc2 (by decide)
        · exact absurd rfl (mem_cutQuery hc2)
    · exact Or.inl h

theorem playlistM2Step_url (st : PState) (m : List Char) (t : Track)
    (h : t ∈ (playlistM2Step st m).tracks) : t ∈ st.tracks ∨ '?' ∉ t.url := by
  simp only [playlistM2Step] at h
  split at h <;>
  · split at h
    · exact Or.inl h
    · split at h
      · split at h
        · exact Or.inl h
        · simp only [List.mem_append, List.mem_singleton] at h
          rcases h with h | rfl
          · exact Or.inl h
          · refine Or.inr (fun hc => ?_)
            first
            | (rcases List.mem_append.mp hc with hc2 | hc2
               · exact absurd hc2 (by decide)
               · exact absurd rfl (mem_cutQuery hc2))
            | exact absurd rfl (mem_cutQuery hc)
      · exact Or.inl h

/-! ## Termination of the hydration traversal: 12 units of fuel suffice -/

theorem foldl_searchStep_ne_none
    (φ : Option (Except (List Char) (List HydTrack)) → Nat →
         Option (Except (List Char) (List HydTrack)))
    (hφe : ∀ e c, φ (some (.error e)) c = some (.error e))
    (hφo : ∀ a c, φ (some (.ok a)) c ≠ none) :
    ∀ (l : List Nat) (init : Option (Except (List Char) (List HydTrack))),
      init ≠ none → l.foldl φ init ≠ none := by
  intro l
  induction l with
  | nil => intro init h; simpa using h
  | cons c l ih =>
    intro init h
    simp only [List.foldl_cons]
    apply ih
    cases init with
    | none => exact absurd rfl h
    | some r =>
      cases r with
      | error e => rw [hφe]; simp
      | ok a => exact hφo a c

/-- The depth-10 cutoff bounds the recursion: at any `depth`, fuel beyond
`11 - depth` is never exhausted.  In particular the traversal terminates on
every graph, cyclic ones included. -/
theorem searchFuel_ne_none (g : List HNode) :
    ∀ (f id depth : Nat) (acc : List HydTrack), 11 - depth < f →
      searchFuel g f id depth acc ≠ none := by
  intro f
  induction f with
  | zero => intro id depth acc h; omega
  | succ f ih =>
    intro id depth acc h
    simp only [searchFuel]
    split
    · simp
    · rename_i hd
      have hfd : 11 - (depth + 1) < f := by omega
      split
      · split
        · simp
        · apply foldl_searchStep_ne_none
          · intro e c; rfl
          · intro a c
            show searchFuel g f c (depth + 1) a ≠ none
            exact ih c (depth + 1) a hfd
          · simp
      · apply foldl_searchStep_ne_none
        · intro e c; rfl
        · intro a c
          show searchFuel g f c (depth + 1) a ≠ none
          exact ih c (depth + 1) a hfd
        · simp
      · simp

theorem searchFuel_some (g : List HNode) (root : Nat) :
    searchFuel g 12 root 0 [] = some (extract_tracks_from_hydration g root) := by
  have h := searchFuel_ne_none g 12 root 0 [] (by omega)
  cases hs : searchFuel g 12 root 0 [] with
  | none => exact absurd hs h
  | some r => simp [extract_tracks_from_hydration, hs]

/-! ## The claims -/

def c1ProfileUrl : List Char := str2 "https://soundcloud.com/u/tracks"
def c1ProfileHtml : List Char := str2 "<a class=\"sound__coverArt\" href=\"/a/b\">z</a>"
def c1PlaylistUrl : List Char := str2 "https://soundcloud.com/u/sets/p"
def c1PlaylistHtml : List Char := str2 "href=\"/a/b\" href=\"/a/b\""
def c1ProfileTracks : List Track :=
  [⟨str2 "https://soundcloud.com/a/b", str2 "B", some (str2 "U"), str2 "U - B", none⟩]
def c1PlaylistTracks : List Track :=
  [⟨str2 "https://soundcloud.com/a/b", str2 "B", some (str2 "A"), str2 "A - B", none⟩]

/-- C1: for every input HTML, a track-list result of profile extraction or
of playlist extraction has pairwise distinct record URLs, and each returned
record is the first record with its URL in the accumulated pre-dedupe pass
output (first-found wins), so the output holds exactly one record per URL. -/
theorem claim1_dedup (u1 h1 u2 h2 : List Char) (ts1 ts2 : List Track)
    (e1 : scrape_profile_core u1 h1 = .tracks ts1)
    (e2 : scrape_playlist_core u2 h2 = .tracks ts2) :
    ((ts1.map (fun t => t.url)).Nodup ∧
      ∀ t ∈ ts1, firstWithUrl t.url (profileRawTracks u1 h1) = some t) ∧
    ((ts2.map (fun t => t.url)).Nodup ∧
      ∀ t ∈ ts2, firstWithUrl t.url (playlistRawTracks u2 h2) = some t) := by
  have hts1 := scrape_profile_core_tracks e1
  have hts2 := scrape_playlist_core_tracks e2
  subst hts1
  subst hts2
  exact ⟨⟨dedupe_nodup _ _, fun t ht => dedupe_first ht⟩,
         ⟨dedupe_nodup _ _, fun t ht => dedupe_first ht⟩⟩

/-- C1, witness: a profile page whose track URL is discovered both by the
href scan and by the cover-art scan, and a playlist page with the same href
twice; each output holds the record once. -/
theorem claim1_dedup_witness :
    ((c1ProfileTracks.map (fun t => t.url)).Nodup ∧
      ∀ t ∈ c1ProfileTracks,
        firstWithUrl t.url (profileRawTracks c1ProfileUrl c1ProfileHtml) = some t) ∧
    ((c1PlaylistTracks.map (fun t => t.url)).Nodup ∧
      ∀ t ∈ c1PlaylistTracks,
        firstWithUrl t.url (playlistRawTracks c1PlaylistUrl c1PlaylistHtml) = some t) :=
  claim1_dedup c1ProfileUrl c1ProfileHtml c1PlaylistUrl c1PlaylistHtml
    c1ProfileTracks c1PlaylistTracks (by rfl) (by rfl)

def c2Url : List Char := str2 "https://soundcloud.com/artist/tracks"
def c2Html : List Char := str2 "href=\"/artist/followers\""
def c2Track : Track :=
  ⟨str2 "https://soundcloud.com/artist/followers", str2 "Followers",
   some (str2 "Artist"), str2 "Artist - Followers", none⟩

/-- C2, failing input: profile pass 1 never checks the reserved-keyword
list (the source checks it only in passes 2 and 3), so an href whose track
slug is the reserved keyword followers is emitted as a track record,
contradicting the claimed exclusion invariant. -/
theorem claim2_reserved_slug_bug :
    scrape_profile_core c2Url c2Html = .tracks [c2Track] ∧
    c2Track.url = str2 "https://soundcloud.com/" ++ str2 "artist" ++ ['/'] ++ str2 "followers" ∧
    str2 "followers" ∈ reservedSlugs := by
  exact ⟨by rfl, by rfl, by decide⟩

/-- C3: a non-exceptional run returns an error exactly when every pass
produced zero records, and that error is exactly the object
error: No tracks found. -/
theorem claim3_no_tracks_found (u h e : List Char) :
    (scrape_profile u (.ok h) = .error e ↔
      e = noTracksMsg ∧ profileRawTracks (normalizeProfileUrl u) h = []) ∧
    (scrape_playlist u (.ok h) = .error e ↔
      e = noTracksMsg ∧ playlistRawTracks u h = []) := by
  constructor
  · constructor
    · intro he
      simp only [scrape_profile, scrape_profile_core] at he
      split at he
      case isTrue hq =>
        cases he
        exact ⟨rfl, (dedupe_nil_iff _).mp hq⟩
      case isFalse hq => exact absurd he (by simp)
    · rintro ⟨rfl, hr⟩
      simp only [scrape_profile, scrape_profile_core, hr]
      rfl
  · constructor
    · intro he
      simp only [scrape_playlist, scrape_playlist_core] at he
      split at he
      case isTrue hq =>
        cases he
        exact ⟨rfl, (dedupe_nil_iff _).mp hq⟩
      case isFalse hq => exact absurd he (by simp)
    · rintro ⟨rfl, hr⟩
      simp only [scrape_playlist, scrape_playlist_core, hr]
      rfl

/-- C3, witness: empty HTML yields exactly the No-tracks-found error for
both entry points. -/
theorem claim3_witness :
    scrape_profile [] (.ok []) = .error noTracksMsg ∧
    scrape_playlist [] (.ok []) = .error noTracksMsg :=
  ⟨(claim3_no_tracks_found [] [] noTracksMsg).1.mpr ⟨rfl, by rfl⟩,
   (claim3_no_tracks_found [] [] noTracksMsg).2.mpr ⟨rfl, by rfl⟩⟩

def c4Url : List Char := normalizeProfileUrl (str2 "https://soundcloud.com/someone")
def c4Html : List Char := str2 "href=\"/http-artist/cool\""
def c4Track : Track :=
  ⟨str2 "http-artist/cool", str2 "Cool", some (str2 "Someone"),
   str2 "Someone - Cool", none⟩

/-- C4, failing input: a relative href whose artist slug starts with http
is misclassified by the startswith check (source line 66), so the stored
URL is the bare relative path, not the canonical absolute form the claim
requires. -/
theorem claim4_canonical_url_bug :
    scrape_profile_core c4Url c4Html = .tracks [c4Track] ∧
    (str2 "https://soundcloud.com/").isPrefixOf c4Track.url = false := by
  exact ⟨by rfl, by rfl⟩

def c5Html : List Char := str2 "href=\"/artist-name/my-track\""
def c5ClaimedTrack : Track :=
  ⟨str2 "https://soundcloud.com/artist-name/my-track", str2 "My Track",
   some (str2 "Artist Name"), str2 "Artist Name - My Track", none⟩
def c5OtherUrl : List Char := normalizeProfileUrl (str2 "https://soundcloud.com/other-guy")

/-- C5, counterexample: with the same HTML fetched from a profile URL whose
username is other-guy, the single record's artist is Other Guy, not Artist
Name: artist is not derived from the href's slugs, so the claimed record
equality fails. -/
theorem claim5_counterexample :
    scrape_profile_core c5OtherUrl c5Html ≠ .tracks [c5ClaimedTrack] ∧
    scrape_profile_core c5OtherUrl c5Html =
      .tracks [⟨str2 "https://soundcloud.com/artist-name/my-track", str2 "My Track",
        some (str2 "Other Guy"), str2 "Other Guy - My Track", none⟩] := by
  exact ⟨by decide, by rfl⟩

/-- C5, amended: for that HTML the title is derived from the href's track
slug, but the artist comes from the username segment of the fetched profile
URL (hyphens to spaces, title-case); when that username is artist-name the
result is exactly the claimed record. -/
theorem claim5_amended :
    scrape_profile_core (normalizeProfileUrl (str2 "https://soundcloud.com/artist-name"))
        c5Html = .tracks [c5ClaimedTrack] ∧
    searchUsername (normalizeProfileUrl (str2 "https://soundcloud.com/artist-name")) =
      some (str2 "artist-name") := by
  exact ⟨by rfl, by rfl⟩

/-- C6: an exception anywhere inside either extraction function (modelled
as the error outcome of the fetch) is caught and returned as an error
object carrying the exception text; the result is that error object, never
a partial track list. -/
theorem claim6_exception_caught (u e : List Char) :
    scrape_profile u (.error e) = .error e ∧
    scrape_playlist u (.error e) = .error e :=
  ⟨rfl, rfl⟩

def c7Html : List Char := str2 "<li class=\"soundList__item\"><div aria-label=\"Track: track x by Someone\"></div></li><a href=\"/artist/track-x?in_system_playlist=1\">x</a>"
def c7QueryTrack : Track :=
  ⟨str2 "https://soundcloud.com/artist/track-x?in_system_playlist=1",
   str2 "track x", some (str2 "Someone"), str2 "Someone - track x", none⟩
def c7CleanTrack : Track :=
  ⟨str2 "https://soundcloud.com/artist/track-x", str2 "Track X",
   some (str2 "Artist"), str2 "Artist - Track X", none⟩
def c7ExampleHtml : List Char := str2 "href=\"/artist/track-x?in_system_playlist=1\""

/-- C7, counterexample: playlist pass 1 (the sound-list fuzzy href match)
stores the matched href verbatim, so a query string survives into the
stored URL: scraping this page yields a record whose URL still carries
in_system_playlist=1, refuting query stripping for every matched href. -/
theorem claim7_counterexample :
    scrape_playlist_core (str2 "u") c7Html = .tracks [c7QueryTrack, c7CleanTrack] ∧
    '?' ∈ c7QueryTrack.url := by
  exact ⟨by rfl, by decide⟩

/-- C7, amended: in playlist passes 0 (track-station scan) and 2 (generic
href fallback) every stored URL has the query string stripped — any record
those passes add is query-free — and for the claim's example page the
stored URL is exactly the stripped form; pass 1 alone can retain a query
string. -/
theorem claim7_query_stripped :
    (∀ (st : PState) (m : List Char) (t : Track),
      t ∈ (playlistM0Step st m).tracks → t ∈ st.tracks ∨ '?' ∉ t.url) ∧
    (∀ (st : PState) (m : List Char) (t : Track),
      t ∈ (playlistM2Step st m).tracks → t ∈ st.tracks ∨ '?' ∉ t.url) ∧
    scrape_playlist_core (str2 "u") c7ExampleHtml = .tracks [c7CleanTrack] :=
  ⟨playlistM0Step_url, playlistM2Step_url, by rfl⟩

/-- C7, witness for the amended pass-2 property at a concrete match with a
query string. -/
theorem claim7_query_stripped_witness :
    c7CleanTrack ∈ initPState.tracks ∨ '?' ∉ c7CleanTrack.url :=
  claim7_query_stripped.2.1 initPState (str2 "artist/track-x?in_system_playlist=1")
    c7CleanTrack (by decide)

def c8CyclicGraph : List HNode := [.hdict [(str2 "self", 0)]]

/-- C8: the hydration traversal terminates on every input graph, cyclic or
self-referential ones included, because the recursion stops once the depth
counter exceeds 10: fuel 12 is never exhausted, so
extract_tracks_from_hydration is the total fuel-independent semantics; on
the one-node self-referential mapping it returns the empty list. -/
theorem claim8_termination :
    (∀ (g : List HNode) (root : Nat),
      searchFuel g 12 root 0 [] = some (extract_tracks_from_hydration g root)) ∧
    extract_tracks_from_hydration c8CyclicGraph 0 = .ok [] :=
  ⟨searchFuel_some, by rfl⟩

def c9Name : List Char := str2 "My Song (Remix).MP3"
def c9Pattern : List RTok := patFuzzy ((slugGuess (str2 "Cool Song")).take 30)
def c9Html : List Char := str2 "<li class=\"soundList__item\"><x aria-label=\"Track: Cool Song by DJ Test \"></x></li><a href=\"/Other/COOL-SONG-live\">f</a><a href=\"/dj-test/cool-song\">x</a>"
def c9Track1 : Track :=
  ⟨str2 "https://soundcloud.com/Other/COOL-SONG-live", str2 "Cool Song",
   some (str2 "DJ Test"), str2 "DJ Test - Cool Song", none⟩
def c9Track2 : Track :=
  ⟨str2 "https://soundcloud.com/dj-test/cool-song", str2 "Cool Song",
   some (str2 "Dj Test"), str2 "Dj Test - Cool Song", none⟩

/-- C9: the slug guess lowercases the label name, maps spaces to hyphens
and removes parentheses, dots and the substring mp3; the fuzzy resolution
searches the whole document and takes the leftmost (first in document
order) match of the 30-character-truncated slug pattern, case-insensitively
inside the href's track part; and on a concrete page the earlier,
differently-cased href wins while title and artist come verbatim (trimmed)
from the label. -/
theorem claim9_fuzzy_pass :
    slugGuess c9Name = str2 "my-song-remix" ∧
    (∀ (html : List Char) (gs : List (List Char)),
      rsearch c9Pattern html = some gs →
        ∃ i, i ≤ html.length ∧ (mrun c9Pattern (html.drop i) [] []).map (·.2) = some gs ∧
          ∀ j < i, mrun c9Pattern (html.drop j) [] [] = none) ∧
    scrape_playlist_core (str2 "u") c9Html = .tracks [c9Track1, c9Track2] :=
  ⟨by rfl, rsearch_leftmost c9Pattern, by rfl⟩

/-- C9, witness: the leftmost-match characterisation instantiated on the
concrete page. -/
theorem claim9_fuzzy_pass_witness :
    ∃ i, i ≤ c9Html.length ∧
      (mrun c9Pattern (c9Html.drop i) [] []).map (·.2) =
        some [str2 "Other", str2 "COOL-SONG-live"] ∧
      ∀ j < i, mrun c9Pattern (c9Html.drop j) [] [] = none :=
  claim9_fuzzy_pass.2.1 c9Html [str2 "Other", str2 "COOL-SONG-live"] (by rfl)

def c10Graph : List HNode :=
  [.hlist [1, 2],
   .hdict [(str2 "permalink_url", 3)],
   .hdict [(str2 "permalink_url", 3)],
   .hstr (str2 "https://soundcloud.com/a/b")]
def c10Rec : HydTrack :=
  ⟨.hstr (str2 "https://soundcloud.com/a/b"), .hstr (str2 "Unknown Track"),
   .hnull, .hstr (str2 "Unknown Track"), .hnull⟩

/-- C10: the hydration extractor performs no deduplication: on a graph in
which two distinct mapping nodes share one permalink_url it appends one
record per node in traversal order, returning the same URL twice — unlike
the profile and playlist pipelines. -/
theorem claim10_no_dedup :
    extract_tracks_from_hydration c10Graph 0 = .ok [c10Rec, c10Rec] ∧
    ¬ (([c10Rec, c10Rec].map (fun t => t.url)).Nodup) := by
  exact ⟨by rfl, by decide⟩
